import Mathlib

/-!
Shallow embedding of the Wedding Cut Tracker application (src/app.py) and
proofs about its daily-aggregation, streak, badge and scoring logic.

Numeric values handled by the Python code (floats produced by pandas sums
and widget inputs) are modelled as rationals; Python int() truncation is
modelled explicitly.  The clock (datetime.date.today()) is modelled as an
explicit integer-day parameter, and calendar dates as integers counting
days, so that subtracting one day is subtracting 1.
-/

/-- CAL_TARGET constant, src/app.py line 14. -/
def CAL_TARGET : ℚ := 1200

/-- PROTEIN_TARGET constant, src/app.py line 15. -/
def PROTEIN_TARGET : ℚ := 110

/-- FAT_TARGET constant, src/app.py line 16. -/
def FAT_TARGET : ℚ := 45

/-- CARB_TARGET constant, src/app.py line 17. -/
def CARB_TARGET : ℚ := 130

/-- Python int() applied to a rational: truncation toward zero. -/
def pyInt (q : ℚ) : ℤ := if q < 0 then -⌊-q⌋ else ⌊q⌋

/-- The numeric totals of one day that the Today's Score computation reads
(total_p, total_cal, total_f in src/app.py lines 571-574). -/
structure ScoreTotals where
  protein : ℚ
  calories : ℚ
  fat : ℚ

/-- Today's Score computation, src/app.py lines 582-586:
protein_score = min(total_p / PROTEIN_TARGET, 1);
calorie_score = min(total_cal / CAL_TARGET, 1);
fat_score = 1 - min(total_f / FAT_TARGET, 1);
score = (protein_score * 0.5 + calorie_score * 0.3 + fat_score * 0.2) * 100,
displayed as int(score). -/
def todayScore (t : ScoreTotals) : ℤ :=
  pyInt ((min (t.protein / PROTEIN_TARGET) 1 * 0.5
    + min (t.calories / CAL_TARGET) 1 * 0.3
    + (1 - min (t.fat / FAT_TARGET) 1) * 0.2) * 100)

/-- The four fixed daily targets, src/app.py lines 14-17. -/
structure Targets where
  calorie_target : ℚ
  protein_target : ℚ
  fat_target : ℚ
  carb_target : ℚ

/-- The configured targets of src/app.py lines 14-17 as a Targets record. -/
def fixedTargets : Targets :=
  { calorie_target := CAL_TARGET, protein_target := PROTEIN_TARGET,
    fat_target := FAT_TARGET, carb_target := CARB_TARGET }

/-- The Today's Score computation of src/app.py lines 582-586 abstracted over
the target constants it divides by.  The Python code divides without any
zero-target guard, so a zero target raises ZeroDivisionError at the
corresponding division; that exceptional outcome is modelled as none. -/
def scoreWithTargets (tg : Targets) (t : ScoreTotals) : Option ℤ :=
  if tg.protein_target = 0 then none
  else if tg.calorie_target = 0 then none
  else if tg.fat_target = 0 then none
  else some (pyInt ((min (t.protein / tg.protein_target) 1 * 0.5
    + min (t.calories / tg.calorie_target) 1 * 0.3
    + (1 - min (t.fat / tg.fat_target) 1) * 0.2) * 100))

/-- The ratio computed by cute_xp_card, src/app.py line 225:
ratio = 0 if target == 0 else min(max(value / target, 0), 1). -/
def cute_xp_card_ratio (value target : ℚ) : ℚ :=
  if target = 0 then 0 else min (max (value / target) 0) 1

theorem pyInt_of_nonneg {q : ℚ} (h : 0 ≤ q) : pyInt q = ⌊q⌋ := by
  unfold pyInt
  rw [if_neg (not_lt.2 h)]

/-- Claim C5: for every day's totals and the fixed targets, the daily score
equals (0.5*min(protein/protein_target,1) + 0.3*min(calories/calorie_target,1)
+ 0.2*(1 - min(fat/fat_target,1))) scaled by 100 and truncated to an integer;
in particular, with targets calorie 1200, protein 110, fat 45 and totals
protein 120, calories 1000, fat 20 the score is 86. -/
theorem claimC5_score_formula :
    (∀ t : ScoreTotals, todayScore t =
      pyInt ((0.5 * min (t.protein / 110) 1 + 0.3 * min (t.calories / 1200) 1
        + 0.2 * (1 - min (t.fat / 45) 1)) * 100))
    ∧ todayScore ⟨120, 1000, 20⟩ = 86 := by
  constructor
  · intro t
    unfold todayScore PROTEIN_TARGET CAL_TARGET FAT_TARGET
    congr 1
    ring
  · have e : todayScore ⟨120, 1000, 20⟩ =
        pyInt ((min ((120 : ℚ)/110) 1 * 0.5 + min ((1000 : ℚ)/1200) 1 * 0.3
          + (1 - min ((20 : ℚ)/45) 1) * 0.2) * 100) := rfl
    have h : (min ((120 : ℚ)/110) 1 * 0.5 + min ((1000 : ℚ)/1200) 1 * 0.3
        + (1 - min ((20 : ℚ)/45) 1) * 0.2) * 100 = 775/9 := by
      rw [min_eq_right, min_eq_left, min_eq_left] <;> norm_num
    rw [e, h, pyInt]
    norm_num

/-- Claim C6: for every non-negative protein, calories and fat input (with
the fixed positive targets), the daily score lies in the interval from 0 to
100 inclusive: the score saturates at 100 and never goes below 0. -/
theorem claimC6_score_bounds (t : ScoreTotals)
    (hp : 0 ≤ t.protein) (hc : 0 ≤ t.calories) (hf : 0 ≤ t.fat) :
    0 ≤ todayScore t ∧ todayScore t ≤ 100 := by
  have ha0 : (0 : ℚ) ≤ min (t.protein / PROTEIN_TARGET) 1 :=
    le_min (by unfold PROTEIN_TARGET; positivity) zero_le_one
  have ha1 : min (t.protein / PROTEIN_TARGET) 1 ≤ 1 := min_le_right _ _
  have hb0 : (0 : ℚ) ≤ min (t.calories / CAL_TARGET) 1 :=
    le_min (by unfold CAL_TARGET; positivity) zero_le_one
  have hb1 : min (t.calories / CAL_TARGET) 1 ≤ 1 := min_le_right _ _
  have hc0 : (0 : ℚ) ≤ 1 - min (t.fat / FAT_TARGET) 1 :=
    sub_nonneg.2 (min_le_right _ _)
  have hc1 : 1 - min (t.fat / FAT_TARGET) 1 ≤ 1 := by
    have : (0 : ℚ) ≤ min (t.fat / FAT_TARGET) 1 :=
      le_min (by unfold FAT_TARGET; positivity) zero_le_one
    linarith
  have hs0 : (0 : ℚ) ≤ (min (t.protein / PROTEIN_TARGET) 1 * 0.5
      + min (t.calories / CAL_TARGET) 1 * 0.3
      + (1 - min (t.fat / FAT_TARGET) 1) * 0.2) * 100 := by nlinarith
  have hs1 : (min (t.protein / PROTEIN_TARGET) 1 * 0.5
      + min (t.calories / CAL_TARGET) 1 * 0.3
      + (1 - min (t.fat / FAT_TARGET) 1) * 0.2) * 100 ≤ 100 := by nlinarith
  unfold todayScore
  rw [pyInt_of_nonneg hs0]
  constructor
  · exact Int.floor_nonneg.2 hs0
  · calc ⌊(min (t.protein / PROTEIN_TARGET) 1 * 0.5
        + min (t.calories / CAL_TARGET) 1 * 0.3
        + (1 - min (t.fat / FAT_TARGET) 1) * 0.2) * 100⌋
        ≤ ⌊(100 : ℚ)⌋ := Int.floor_le_floor hs1
      _ = 100 := by norm_num

theorem claimC6_score_bounds_witness :
    0 ≤ todayScore ⟨120, 1000, 20⟩ ∧ todayScore ⟨120, 1000, 20⟩ ≤ 100 :=
  claimC6_score_bounds ⟨120, 1000, 20⟩
    (show (0 : ℚ) ≤ 120 by norm_num)
    (show (0 : ℚ) ≤ 1000 by norm_num)
    (show (0 : ℚ) ≤ 20 by norm_num)

/-- Counterexample to claim C1 as stated: with a zero protein target the
daily-score computation does not treat the ratio as 1.0 and does not avoid
the division by zero; it fails (ZeroDivisionError, modelled as none).  The
XP-card ratio guard that does exist treats a zero target as ratio 0, not 1. -/
theorem claimC1_zero_target_counterexample :
    scoreWithTargets ⟨1200, 0, 45, 130⟩ ⟨120, 1000, 20⟩ = none
    ∧ cute_xp_card_ratio 50 0 ≠ 1 := by
  constructor
  · simp [scoreWithTargets]
  · simp [cute_xp_card_ratio]

/-- Claim C1 amended: the daily-score computation has no zero-target guard at
all: whenever one of the protein, calorie or fat targets is 0, the division
by that target fails (ZeroDivisionError, modelled as none) instead of the
ratio being treated as 1.0; the only zero-target guard in the code is in
cute_xp_card, and it treats the ratio of a zero target as 0, not 1.0. -/
theorem claimC1_zero_target_amended :
    (∀ (tg : Targets) (t : ScoreTotals),
      tg.protein_target = 0 ∨ tg.calorie_target = 0 ∨ tg.fat_target = 0 →
      scoreWithTargets tg t = none)
    ∧ (∀ v : ℚ, cute_xp_card_ratio v 0 = 0) := by
  constructor
  · intro tg t h
    unfold scoreWithTargets
    rcases h with h | h | h
    · rw [if_pos h]
    · by_cases hp : tg.protein_target = 0
      · rw [if_pos hp]
      · rw [if_neg hp, if_pos h]
    · by_cases hp : tg.protein_target = 0
      · rw [if_pos hp]
      · by_cases hcal : tg.calorie_target = 0
        · rw [if_neg hp, if_pos hcal]
        · rw [if_neg hp, if_neg hcal, if_pos h]
  · intro v
    unfold cute_xp_card_ratio
    rw [if_pos rfl]

theorem claimC1_zero_target_amended_witness :
    scoreWithTargets ⟨0, 110, 45, 130⟩ ⟨120, 1000, 20⟩ = none
    ∧ cute_xp_card_ratio 50 0 = 0 :=
  ⟨claimC1_zero_target_amended.1 ⟨0, 110, 45, 130⟩ ⟨120, 1000, 20⟩
      (Or.inr (Or.inl rfl)),
    claimC1_zero_target_amended.2 50⟩

/-- One row of the Meals table as compute_daily_totals consumes it: the date
field models the outcome of pd.to_datetime(..., errors="coerce") on the raw
date cell (none = unparsable, NaT, dropped by dropna), as an integer day
number; the four numeric columns are the ones groupby().sum(numeric_only)
adds up. -/
structure MealRow where
  date : Option ℤ
  protein : ℚ
  fat : ℚ
  carbs : ℚ
  calories : ℚ

/-- Per-day numeric totals, the content of one row of the frame returned by
compute_daily_totals (src/app.py line 327). -/
structure Totals where
  protein : ℚ
  fat : ℚ
  carbs : ℚ
  calories : ℚ

/-- Numeric part of one meal row. -/
def rowTotals (e : MealRow) : Totals :=
  { protein := e.protein, fat := e.fat, carbs := e.carbs, calories := e.calories }

/-- Columnwise addition, as pandas sum adds each numeric column. -/
def addTotals (a b : Totals) : Totals :=
  { protein := a.protein + b.protein, fat := a.fat + b.fat,
    carbs := a.carbs + b.carbs, calories := a.calories + b.calories }

/-- All-zero totals. -/
def zeroTotals : Totals := { protein := 0, fat := 0, carbs := 0, calories := 0 }

/-- Insert a day into a strictly ascending list of days, keeping it strictly
ascending (used to model the sorted distinct group keys that pandas groupby
followed by sort_index produces, src/app.py lines 327-329). -/
def insertDate (d : ℤ) : List ℤ → List ℤ
  | [] => [d]
  | x :: xs =>
    if d < x then d :: x :: xs
    else if d = x then x :: xs
    else x :: insertDate d xs

/-- The distinct parsed dates of a list of meal rows, ascending. -/
def datesOf (es : List MealRow) : List ℤ :=
  es.foldr (fun e acc =>
    match e.date with
    | some d => insertDate d acc
    | none => acc) []

/-- Sum of the numeric columns over the rows of one calendar date. -/
def sumOn (d : ℤ) (es : List MealRow) : Totals :=
  (es.filter (fun e => e.date = some d)).foldl
    (fun acc e => addTotals acc (rowTotals e)) zeroTotals

/-- The grouping-and-summing core of compute_daily_totals, src/app.py lines
324-329: rows whose date did not parse are dropped, the remaining rows are
grouped by calendar date, each numeric column is summed per group, and the
result is indexed by the distinct dates in ascending order. -/
def aggregateMeals (es : List MealRow) : List (ℤ × Totals) :=
  (datesOf es).map (fun d => (d, sumOn d es))

/-- The Meals table as read_records hands it to compute_daily_totals: the
normalized column names and the data rows. -/
structure MealsTable where
  cols : List String
  rows : List MealRow

/-- compute_daily_totals, src/app.py lines 319-329: an empty frame yields an
empty frame; a frame without a date column yields an empty frame (silently,
with no error raised); otherwise the rows are grouped by parsed date and
summed. -/
def compute_daily_totals (meals : MealsTable) : List (ℤ × Totals) :=
  if meals.rows.isEmpty then []
  else if "date" ∈ meals.cols then aggregateMeals meals.rows
  else []

/-- Outcome of a view-level guard: either the view stops with an error shown
to the user (st.error followed by st.stop) or it proceeds. -/
inductive ViewOutcome
  | errorStop
  | proceed
deriving DecidableEq

/-- The Smart Food Entry guard, src/app.py lines 497-499: if the FoodDatabase
frame is empty or has no food_name column, an error is surfaced and the view
stops. -/
def smart_food_entry_guard (cols : List String) (rowCount : ℕ) : ViewOutcome :=
  if rowCount = 0 ∨ "food_name" ∉ cols then .errorStop else .proceed

/-- The Today's Summary guard, src/app.py lines 560-565: an empty Meals frame
just shows an info message, but a non-empty frame without a date column
surfaces an error and stops the view. -/
def today_summary_date_guard (meals : MealsTable) : ViewOutcome :=
  if meals.rows.isEmpty then .proceed
  else if "date" ∈ meals.cols then .proceed
  else .errorStop

theorem mem_insertDate {a d : ℤ} {l : List ℤ} :
    a ∈ insertDate d l ↔ a = d ∨ a ∈ l := by
  induction l with
  | nil => simp [insertDate]
  | cons x xs ih =>
    unfold insertDate
    by_cases h1 : d < x
    · simp [h1]
    · by_cases h2 : d = x
      · rw [if_neg h1, if_pos h2]
        subst h2
        simp only [List.mem_cons]
        tauto
      · rw [if_neg h1, if_neg h2]
        simp only [List.mem_cons, ih]
        tauto

theorem sorted_insertDate {d : ℤ} {l : List ℤ} (h : l.Sorted (· < ·)) :
    (insertDate d l).Sorted (· < ·) := by
  induction l with
  | nil => simp [insertDate]
  | cons x xs ih =>
    rw [List.sorted_cons] at h
    obtain ⟨hx, hxs⟩ := h
    unfold insertDate
    by_cases h1 : d < x
    · rw [if_pos h1, List.sorted_cons]
      refine ⟨?_, ?_⟩
      · intro b hb
        rcases List.mem_cons.1 hb with rfl | hb
        · exact h1
        · exact h1.trans (hx b hb)
      · rw [List.sorted_cons]
        exact ⟨hx, hxs⟩
    · by_cases h2 : d = x
      · rw [if_neg h1, if_pos h2, List.sorted_cons]
        exact ⟨hx, hxs⟩
      · rw [if_neg h1, if_neg h2, List.sorted_cons]
        refine ⟨?_, ih hxs⟩
        intro b hb
        rcases mem_insertDate.1 hb with rfl | hb
        · exact lt_of_le_of_ne (not_lt.1 h1) (fun he => h2 he.symm)
        · exact hx b hb

theorem sorted_datesOf (es : List MealRow) : (datesOf es).Sorted (· < ·) := by
  induction es with
  | nil => simp [datesOf]
  | cons e es ih =>
    unfold datesOf at ih ⊢
    simp only [List.foldr_cons]
    cases e.date with
    | none => exact ih
    | some d => exact sorted_insertDate ih

theorem mem_datesOf {d : ℤ} {es : List MealRow} :
    d ∈ datesOf es ↔ some d ∈ es.map MealRow.date := by
  induction es with
  | nil => simp [datesOf]
  | cons e es ih =>
    unfold datesOf at ih ⊢
    simp only [List.foldr_cons, List.map_cons, List.mem_cons]
    cases h : e.date with
    | none => simp [ih]
    | some x => simp [mem_insertDate, ih, eq_comm]

theorem foldl_addTotals (l : List MealRow) (acc : Totals) :
    l.foldl (fun a e => addTotals a (rowTotals e)) acc =
      { protein := acc.protein + (l.map MealRow.protein).sum,
        fat := acc.fat + (l.map MealRow.fat).sum,
        carbs := acc.carbs + (l.map MealRow.carbs).sum,
        calories := acc.calories + (l.map MealRow.calories).sum } := by
  induction l generalizing acc with
  | nil => simp
  | cons e l ih =>
    rw [List.foldl_cons, ih]
    simp only [List.map_cons, List.sum_cons, addTotals, rowTotals, Totals.mk.injEq]
    refine ⟨by ring, by ring, by ring, by ring⟩

theorem sumOn_eq (d : ℤ) (es : List MealRow) :
    sumOn d es =
      { protein := ((es.filter (fun e => e.date = some d)).map MealRow.protein).sum,
        fat := ((es.filter (fun e => e.date = some d)).map MealRow.fat).sum,
        carbs := ((es.filter (fun e => e.date = some d)).map MealRow.carbs).sum,
        calories := ((es.filter (fun e => e.date = some d)).map MealRow.calories).sum } := by
  unfold sumOn
  rw [foldl_addTotals]
  simp [zeroTotals]

/-- Claim C4: the aggregation groups entries by calendar date after silently
dropping entries with unparsable dates, returns one row per date present
ordered by date ascending, and each date's totals equal the arithmetic sum of
each numeric field over exactly the entries of that date; the empty sequence
yields an empty mapping. -/
theorem claimC4_aggregate :
    aggregateMeals [] = []
    ∧ (∀ cols : List String, compute_daily_totals { cols := cols, rows := [] } = [])
    ∧ (∀ es : List MealRow, ((aggregateMeals es).map Prod.fst).Sorted (· < ·))
    ∧ (∀ (es : List MealRow) (d : ℤ),
        (∃ tot, (d, tot) ∈ aggregateMeals es) ↔ some d ∈ es.map MealRow.date)
    ∧ (∀ (es : List MealRow) (d : ℤ) (tot : Totals), (d, tot) ∈ aggregateMeals es →
        tot.protein = ((es.filter (fun e => e.date = some d)).map MealRow.protein).sum
        ∧ tot.fat = ((es.filter (fun e => e.date = some d)).map MealRow.fat).sum
        ∧ tot.carbs = ((es.filter (fun e => e.date = some d)).map MealRow.carbs).sum
        ∧ tot.calories =
          ((es.filter (fun e => e.date = some d)).map MealRow.calories).sum) := by
  refine ⟨rfl, ?_, ?_, ?_, ?_⟩
  · intro cols
    simp [compute_daily_totals]
  · intro es
    have h : (aggregateMeals es).map Prod.fst = datesOf es := by
      simp [aggregateMeals, List.map_map, Function.comp_def]
    rw [h]
    exact sorted_datesOf es
  · intro es d
    constructor
    · rintro ⟨tot, ht⟩
      simp only [aggregateMeals, List.mem_map] at ht
      obtain ⟨a, ha, he⟩ := ht
      injection he with h1 h2
      subst h1
      exact mem_datesOf.1 ha
    · intro h
      refine ⟨sumOn d es, ?_⟩
      simp only [aggregateMeals, List.mem_map]
      exact ⟨d, mem_datesOf.2 h, rfl⟩
  · intro es d tot ht
    simp only [aggregateMeals, List.mem_map] at ht
    obtain ⟨a, ha, he⟩ := ht
    injection he with h1 h2
    subst h1
    subst h2
    rw [sumOn_eq]
    exact ⟨rfl, rfl, rfl, rfl⟩

theorem claimC4_aggregate_witness :
    ((5 : ℤ),
        ({ protein := 10, fat := 2, carbs := 3, calories := 4 } : Totals)) ∈
      aggregateMeals
        [{ date := some 5, protein := 10, fat := 2, carbs := 3, calories := 4 }]
    ∧ (({ protein := 10, fat := 2, carbs := 3, calories := 4 } : Totals).protein =
        (([{ date := some 5, protein := 10, fat := 2, carbs := 3, calories := 4 }].filter
          (fun e => e.date = some 5)).map MealRow.protein).sum) := by
  have hmem : ((5 : ℤ),
      ({ protein := 10, fat := 2, carbs := 3, calories := 4 } : Totals)) ∈
      aggregateMeals
        [{ date := some 5, protein := 10, fat := 2, carbs := 3, calories := 4 }] := by
    simp [aggregateMeals, datesOf, insertDate, sumOn, addTotals, rowTotals, zeroTotals]
  exact ⟨hmem, (claimC4_aggregate.2.2.2.2 _ 5 _ hmem).1⟩

/-- Counterexample to claim C2 as stated: a non-empty Meals table whose date
column is missing makes compute_daily_totals silently return an empty frame,
with no error raised, exactly the behaviour the claim rules out for the
daily-totals aggregation. -/
theorem claimC2_missing_column_counterexample :
    compute_daily_totals
      { cols := ["food_name", "protein"],
        rows := [{ date := none, protein := 10, fat := 2, carbs := 3, calories := 4 }] }
      = []
    ∧ (MealsTable.rows
        { cols := ["food_name", "protein"],
          rows := [{ date := none, protein := 10, fat := 2, carbs := 3, calories := 4 }] }
        ≠ []) := by
  constructor
  · simp [compute_daily_totals]
  · simp

/-- Claim C2 amended: the explicit column checks are fatal and surfaced — the
Smart Food Entry view errors and stops when the food table has no food_name
column, and the Today's Summary section errors and stops when a non-empty
Meals table has no date column — but the daily-totals aggregation itself does
not error: with the date column missing, compute_daily_totals silently
returns an empty result. -/
theorem claimC2_missing_column_amended :
    (∀ meals : MealsTable, meals.rows ≠ [] → "date" ∉ meals.cols →
      compute_daily_totals meals = []
      ∧ today_summary_date_guard meals = .errorStop)
    ∧ (∀ (cols : List String) (n : ℕ), "food_name" ∉ cols →
      smart_food_entry_guard cols n = .errorStop) := by
  constructor
  · intro meals hne hd
    have hempty : meals.rows.isEmpty ≠ true := by
      simpa [List.isEmpty_iff] using hne
    constructor
    · unfold compute_daily_totals
      rw [if_neg hempty, if_neg hd]
    · unfold today_summary_date_guard
      rw [if_neg hempty, if_neg hd]
  · intro cols n h
    unfold smart_food_entry_guard
    rw [if_pos (Or.inr h)]

theorem claimC2_missing_column_amended_witness :
    (compute_daily_totals
      { cols := ["food_name", "protein"],
        rows := [{ date := none, protein := 1, fat := 1, carbs := 1, calories := 1 }] }
      = []
    ∧ today_summary_date_guard
      { cols := ["food_name", "protein"],
        rows := [{ date := none, protein := 1, fat := 1, carbs := 1, calories := 1 }] }
      = .errorStop)
    ∧ smart_food_entry_guard ["meal_name", "protein"] 3 = .errorStop :=
  ⟨claimC2_missing_column_amended.1
      { cols := ["food_name", "protein"],
        rows := [{ date := none, protein := 1, fat := 1, carbs := 1, calories := 1 }] }
      (by simp) (by simp),
    claimC2_missing_column_amended.2 ["meal_name", "protein"] 3 (by simp)⟩

/-- The daily-totals frame as current_streak consumes it (src/app.py lines
331-343): the column names, and per calendar day (an integer day number,
matching the datetime index) the row's boolean condition cells such as
hit_protein and perfect_day (lines 445-446). -/
structure DailyFrame where
  cols : List String
  rows : List (ℤ × List (String × Bool))

/-- Index lookup: the row of a given day, if that day is in the index. -/
def lookupRow (df : DailyFrame) (d : ℤ) : Option (List (String × Bool)) :=
  (df.rows.find? (fun p => p.1 = d)).map (fun p => p.2)

/-- Cell access within one row, bool(daily.loc[day, condition_col]). -/
def cellBool (row : List (String × Bool)) (c : String) : Bool :=
  ((row.find? (fun p => p.1 = c)).map (fun p => p.2)).getD false

/-- The loop condition of current_streak, src/app.py line 338:
(day in daily.index) and bool(daily.loc[day, condition_col]). -/
def holdsAt (df : DailyFrame) (c : String) (d : ℤ) : Bool :=
  match lookupRow df d with
  | some row => cellBool row c
  | none => false

theorem holdsAt_mem {df : DailyFrame} {c : String} {d : ℤ}
    (h : holdsAt df c d = true) : ∃ p ∈ df.rows, p.1 = d := by
  unfold holdsAt lookupRow at h
  cases hf : df.rows.find? (fun p => p.1 = d) with
  | none => rw [hf] at h; simp at h
  | some p =>
    refine ⟨p, List.mem_of_find?_eq_some hf, ?_⟩
    have := List.find?_some hf
    simpa using this

theorem filter_le_lt {df : DailyFrame} {c : String} {d : ℤ}
    (h : holdsAt df c d = true) :
    (df.rows.filter (fun p => p.1 ≤ d - 1)).length
      < (df.rows.filter (fun p => p.1 ≤ d)).length := by
  obtain ⟨p, hp, hpd⟩ := holdsAt_mem h
  have hsub : (df.rows.filter (fun p => p.1 ≤ d - 1)).Sublist
      (df.rows.filter (fun p => p.1 ≤ d)) := by
    apply List.monotone_filter_right
    intro x hx
    simp only [decide_eq_true_eq] at hx ⊢
    omega
  rcases lt_or_eq_of_le hsub.length_le with hlt | heq
  · exact hlt
  · exfalso
    have heqq := hsub.eq_of_length heq
    have hpmem : p ∈ df.rows.filter (fun p => p.1 ≤ d) := by
      rw [List.mem_filter]
      exact ⟨hp, by simp [hpd]⟩
    rw [← heqq, List.mem_filter] at hpmem
    have := hpmem.2
    simp [hpd] at this

/-- The while loop of current_streak, src/app.py lines 336-342, started at a
given probe day: while the probe day is in the index and its condition cell
is truthy, count it and move the probe one calendar day back.  Total because
every counted day consumes one row with index at most the probe day. -/
def streakFrom (df : DailyFrame) (c : String) (day : ℤ) : ℕ :=
  if h : holdsAt df c day = true then
    streakFrom df c (day - 1) + 1
  else 0
termination_by (df.rows.filter (fun p => p.1 ≤ day)).length
decreasing_by exact filter_le_lt h

/-- current_streak, src/app.py lines 331-343: 0 when the frame is empty or
the condition column is missing, else the backward walk from today.  The
clock datetime.date.today() is the explicit today parameter. -/
def current_streak (today : ℤ) (daily : DailyFrame) (condition_col : String) : ℕ :=
  if daily.rows.isEmpty ∨ condition_col ∉ daily.cols then 0
  else streakFrom daily condition_col today

theorem streakFrom_spec (df : DailyFrame) (c : String) :
    ∀ (n : ℕ) (day : ℤ), streakFrom df c day = n →
      (∀ k : ℕ, k < n → holdsAt df c (day - k) = true)
      ∧ holdsAt df c (day - n) = false := by
  intro n
  induction n with
  | zero =>
    intro day h
    refine ⟨fun k hk => absurd hk (Nat.not_lt_zero k), ?_⟩
    rw [streakFrom] at h
    by_cases hh : holdsAt df c day = true
    · rw [dif_pos hh] at h
      omega
    · have hf : holdsAt df c day = false := by
        rw [← Bool.not_eq_true]
        exact hh
      simpa using hf
  | succ n ih =>
    intro day h
    rw [streakFrom] at h
    by_cases hh : holdsAt df c day = true
    · rw [dif_pos hh] at h
      have hn : streakFrom df c (day - 1) = n := by omega
      obtain ⟨ih1, ih2⟩ := ih (day - 1) hn
      constructor
      · intro k hk
        cases k with
        | zero => simpa using hh
        | succ j =>
          have hj := ih1 j (by omega)
          have e : day - ((j : ℕ) + 1 : ℕ) = day - 1 - (j : ℕ) := by
            push_cast
            ring
          rw [e]
          exact hj
      · have e : day - ((n : ℕ) + 1 : ℕ) = day - 1 - (n : ℕ) := by
          push_cast
          ring
        rw [e]
        exact ih2
    · rw [dif_neg hh] at h
      omega

theorem streakFrom_le (df : DailyFrame) (c : String) (day : ℤ) :
    streakFrom df c day ≤ (df.rows.filter (fun p => p.1 ≤ day)).length := by
  rw [streakFrom]
  by_cases h : holdsAt df c day = true
  · rw [dif_pos h]
    have ih := streakFrom_le df c (day - 1)
    have hlt := filter_le_lt h
    omega
  · rw [dif_neg h]
    exact Nat.zero_le _
termination_by (df.rows.filter (fun p => p.1 ≤ day)).length
decreasing_by exact filter_le_lt h

/-- Claim C3: the streak starts at today and walks backward one calendar day
at a time, counting while the date exists in the mapping and the condition
holds on that date's row, stopping at the first missing day or false
condition; it returns 0 when today itself fails; and whenever today and
yesterday qualify but two days ago fails (for instance because that row is
missing), it returns exactly 2. -/
theorem claimC3_streak_walk :
    (∀ (today : ℤ) (df : DailyFrame) (c : String),
      df.rows ≠ [] → c ∈ df.cols →
      (∀ k : ℕ, k < current_streak today df c →
        holdsAt df c (today - k) = true)
      ∧ holdsAt df c (today - current_streak today df c) = false)
    ∧ (∀ (today : ℤ) (df : DailyFrame) (c : String),
      holdsAt df c today = false → current_streak today df c = 0)
    ∧ (∀ (today : ℤ) (df : DailyFrame) (c : String),
      df.rows ≠ [] → c ∈ df.cols →
      holdsAt df c today = true → holdsAt df c (today - 1) = true →
      holdsAt df c (today - 2) = false → current_streak today df c = 2) := by
  refine ⟨?_, ?_, ?_⟩
  · intro today df c hne hc
    have hg : ¬(df.rows.isEmpty = true ∨ c ∉ df.cols) := by
      simp [List.isEmpty_iff, hne, hc]
    rw [current_streak, if_neg hg]
    exact streakFrom_spec df c (streakFrom df c today) today rfl
  · intro today df c h
    by_cases hg : df.rows.isEmpty = true ∨ c ∉ df.cols
    · rw [current_streak, if_pos hg]
    · rw [current_streak, if_neg hg, streakFrom, dif_neg (by simp [h])]
  · intro today df c hne hc h0 h1 h2
    have hg : ¬(df.rows.isEmpty = true ∨ c ∉ df.cols) := by
      simp [List.isEmpty_iff, hne, hc]
    rw [current_streak, if_neg hg, streakFrom, dif_pos h0, streakFrom,
      dif_pos h1, streakFrom, show today - 1 - 1 = today - 2 by ring,
      dif_neg (by simp [h2])]

theorem claimC3_streak_walk_witness :
    current_streak 10
      { cols := ["hit_protein"],
        rows := [(10, [("hit_protein", true)]), (9, [("hit_protein", true)])] }
      "hit_protein" = 2 :=
  claimC3_streak_walk.2.2 10
    { cols := ["hit_protein"],
      rows := [(10, [("hit_protein", true)]), (9, [("hit_protein", true)])] }
    "hit_protein" (by simp) (by simp) (by decide) (by decide) (by decide)

/-- Claim C10: the streak computation terminates: it returns 0 immediately
when the frame is empty or the condition column is missing, the backward walk
from any probe day counts at most the number of index rows at or before that
day (each iteration moves the probe back one day and every counted day is one
such row), and when every index date is at least some earliest day, the
streak from today is bounded by today minus that earliest day plus one. -/
theorem claimC10_streak_terminates :
    (∀ (today : ℤ) (df : DailyFrame) (c : String),
      df.rows = [] → current_streak today df c = 0)
    ∧ (∀ (today : ℤ) (df : DailyFrame) (c : String),
      c ∉ df.cols → current_streak today df c = 0)
    ∧ (∀ (day : ℤ) (df : DailyFrame) (c : String),
      streakFrom df c day ≤ (df.rows.filter (fun p => p.1 ≤ day)).length)
    ∧ (∀ (today : ℤ) (df : DailyFrame) (c : String) (emin : ℤ),
      (∀ p ∈ df.rows, emin ≤ p.1) →
      (current_streak today df c : ℤ) ≤ max (today - emin + 1) 0) := by
  refine ⟨?_, ?_, ?_, ?_⟩
  · intro today df c h
    rw [current_streak, if_pos (Or.inl (by simp [h]))]
  · intro today df c h
    rw [current_streak, if_pos (Or.inr h)]
  · intro day df c
    exact streakFrom_le df c day
  · intro today df c emin hmin
    by_cases hg : df.rows.isEmpty = true ∨ c ∉ df.cols
    · rw [current_streak, if_pos hg]
      simp only [Nat.cast_zero]
      exact le_max_right _ _
    · rw [current_streak, if_neg hg]
      rcases Nat.eq_zero_or_pos (streakFrom df c today) with h0 | hpos
      · rw [h0]
        simp only [Nat.cast_zero]
        exact le_max_right _ _
      · obtain ⟨m, hm⟩ : ∃ m, streakFrom df c today = m + 1 :=
          ⟨streakFrom df c today - 1, by omega⟩
        have hh := (streakFrom_spec df c (m + 1) today hm).1 m (by omega)
        obtain ⟨p, hp, hpd⟩ := holdsAt_mem hh
        have hemin := hmin p hp
        rw [hpd] at hemin
        have hle : ((m : ℤ) + 1) ≤ today - emin + 1 := by omega
        rw [hm]
        push_cast
        exact hle.trans (le_max_left _ _)

theorem claimC10_streak_terminates_witness :
    (current_streak 10
      { cols := ["hit_protein"],
        rows := [(10, [("hit_protein", true)]), (9, [("hit_protein", true)])] }
      "hit_protein" : ℤ) ≤ max ((10 : ℤ) - 9 + 1) 0 :=
  claimC10_streak_terminates.2.2.2 10
    { cols := ["hit_protein"],
      rows := [(10, [("hit_protein", true)]), (9, [("hit_protein", true)])] }
    "hit_protein" 9 (by decide)

/-- The badge unlock rules, src/app.py lines 460-473, evaluated when the
daily frame is non-empty (line 444): the First Log badge is unconditional in
that branch; the Protein Boss and Perfect Day badges read today's row when
today is in the index (today_row is None otherwise, line 458); each streak
threshold that is met appends its badge independently. -/
def unlockedBadges (todayRow : Option ScoreTotals) (proteinStreak : ℕ) : List String :=
  let l0 := ["🥚 First Log"]
  let l1 :=
    match todayRow with
    | some r =>
      let la := if PROTEIN_TARGET ≤ r.protein then l0 ++ ["🦎 Protein Boss"] else l0
      if PROTEIN_TARGET ≤ r.protein ∧ r.calories ≤ CAL_TARGET then
        la ++ ["🌸 Perfect Day"]
      else la
    | none => l0
  let l2 := if 3 ≤ proteinStreak then l1 ++ ["🔥 3-Day Streak"] else l1
  let l3 := if 7 ≤ proteinStreak then l2 ++ ["💎 7-Day Streak"] else l2
  if 14 ≤ proteinStreak then l3 ++ ["👑 14-Day Streak"] else l3

theorem unlockedBadges_eq (r : Option ScoreTotals) (s : ℕ) :
    unlockedBadges r s =
      ["🥚 First Log"]
      ++ (match r with
          | some t =>
            if PROTEIN_TARGET ≤ t.protein then ["🦎 Protein Boss"] else []
          | none => [])
      ++ (match r with
          | some t =>
            if PROTEIN_TARGET ≤ t.protein ∧ t.calories ≤ CAL_TARGET then
              ["🌸 Perfect Day"]
            else []
          | none => [])
      ++ (if 3 ≤ s then ["🔥 3-Day Streak"] else [])
      ++ (if 7 ≤ s then ["💎 7-Day Streak"] else [])
      ++ (if 14 ≤ s then ["👑 14-Day Streak"] else []) := by
  unfold unlockedBadges
  cases r <;> split_ifs <;> (try simp_all) <;> split_ifs <;> simp_all

/-- Claim C7: the badge rules are evaluated independently: First Log is
present whenever the badge computation runs at all (the daily frame is
non-empty); Protein Boss and Perfect Day are decided from today's totals
against the targets; every streak threshold that is met fires simultaneously;
and totals protein 115, calories 1100 with protein streak 3 yield exactly
First Log, Protein Boss, Perfect Day and the 3-day streak badge. -/
theorem claimC7_badge_rules :
    (∀ (r : Option ScoreTotals) (s : ℕ), "🥚 First Log" ∈ unlockedBadges r s)
    ∧ (∀ (r : ScoreTotals) (s : ℕ),
        ("🦎 Protein Boss" ∈ unlockedBadges (some r) s ↔
          PROTEIN_TARGET ≤ r.protein))
    ∧ (∀ (r : ScoreTotals) (s : ℕ),
        ("🌸 Perfect Day" ∈ unlockedBadges (some r) s ↔
          PROTEIN_TARGET ≤ r.protein ∧ r.calories ≤ CAL_TARGET))
    ∧ (∀ (r : Option ScoreTotals) (s : ℕ),
        ("🔥 3-Day Streak" ∈ unlockedBadges r s ↔ 3 ≤ s))
    ∧ (∀ (r : Option ScoreTotals) (s : ℕ),
        ("💎 7-Day Streak" ∈ unlockedBadges r s ↔ 7 ≤ s))
    ∧ (∀ (r : Option ScoreTotals) (s : ℕ),
        ("👑 14-Day Streak" ∈ unlockedBadges r s ↔ 14 ≤ s))
    ∧ unlockedBadges (some ⟨115, 1100, 0⟩) 3 =
        ["🥚 First Log", "🦎 Protein Boss", "🌸 Perfect Day", "🔥 3-Day Streak"] := by
  refine ⟨?_, ?_, ?_, ?_, ?_, ?_, ?_⟩
  · intro r s
    rw [unlockedBadges_eq]
    simp
  · intro r s
    rw [unlockedBadges_eq]
    split_ifs <;> simp_all
  · intro r s
    rw [unlockedBadges_eq]
    split_ifs <;> simp_all
  · intro r s
    rw [unlockedBadges_eq]
    cases r <;> split_ifs <;> simp_all
  · intro r s
    rw [unlockedBadges_eq]
    cases r <;> split_ifs <;> simp_all
  · intro r s
    rw [unlockedBadges_eq]
    cases r <;> split_ifs <;> simp_all
  · rw [unlockedBadges_eq]
    norm_num [PROTEIN_TARGET, CAL_TARGET]

/-- The row appended by Manual Entry, src/app.py lines 534-554: the macros
come from the number inputs and the calories cell is the value computed at
line 539, calories_m = protein_m * 4 + fat_m * 9 + carbs_m * 4. -/
def manual_entry_row (today : ℤ) (protein_m fat_m carbs_m : ℚ) : MealRow :=
  { date := some today, protein := protein_m, fat := fat_m, carbs := carbs_m,
    calories := protein_m * 4 + fat_m * 9 + carbs_m * 4 }

/-- Claim C8: every manually entered meal satisfies the calories invariant:
its calories value equals protein_g*4 + fat_g*9 + carb_g*4 computed from the
entered macros. -/
theorem claimC8_manual_calories_invariant :
    ∀ (today : ℤ) (p f c : ℚ),
      (manual_entry_row today p f c).calories =
        (manual_entry_row today p f c).protein * 4
        + (manual_entry_row today p f c).fat * 9
        + (manual_entry_row today p f c).carbs * 4 :=
  fun _ _ _ _ => rfl

/-- One row of the FoodDatabase table, src/app.py lines 496-510. -/
structure FoodProfile where
  protein_per_100g : ℚ
  fat_per_100g : ℚ
  carbs_per_100g : ℚ
  calories_per_100g : ℚ

/-- The macros shown and appended by Smart Food Entry. -/
structure Macros where
  protein : ℚ
  fat : ℚ
  carbs : ℚ
  calories : ℚ

/-- Smart Food Entry scaling, src/app.py lines 507-510: each per-100g profile
field is multiplied by grams / 100. -/
def smart_entry_macros (food : FoodProfile) (grams : ℚ) : Macros :=
  { protein := grams / 100 * food.protein_per_100g,
    fat := grams / 100 * food.fat_per_100g,
    carbs := grams / 100 * food.carbs_per_100g,
    calories := grams / 100 * food.calories_per_100g }

/-- Claim C9: the smart-entry macro computation scales each per-100g profile
field linearly by grams/100; at grams = 100 it returns the profile's per-100g
values exactly, and at grams = 0 it yields all-zero macros. -/
theorem claimC9_smart_entry_scaling :
    (∀ (food : FoodProfile) (grams : ℚ),
      smart_entry_macros food grams =
        { protein := grams / 100 * food.protein_per_100g,
          fat := grams / 100 * food.fat_per_100g,
          carbs := grams / 100 * food.carbs_per_100g,
          calories := grams / 100 * food.calories_per_100g })
    ∧ (∀ food : FoodProfile, smart_entry_macros food 100 =
        { protein := food.protein_per_100g, fat := food.fat_per_100g,
          carbs := food.carbs_per_100g, calories := food.calories_per_100g })
    ∧ (∀ food : FoodProfile, smart_entry_macros food 0 =
        { protein := 0, fat := 0, carbs := 0, calories := 0 }) := by
  refine ⟨fun food grams => rfl, ?_, ?_⟩
  · intro food
    unfold smart_entry_macros
    simp only [Macros.mk.injEq]
    norm_num
  · intro food
    unfold smart_entry_macros
    simp only [Macros.mk.injEq]
    norm_num
